import Mathlib

/-!
# Verification of the site-audit crawler (`src/crawler.ts`)

A shallow embedding of the crawl-and-classify engine of the repository:
the `SiteCrawler` class of `src/crawler.ts` (URL-pattern generalizer, page
classifier, category/product link extractors, and the bounded crawl
orchestrator `analyzeSite`), together with proofs of the spec's testable
properties.

External capabilities (the HTTP fetch, the cheerio document queries, and
the runtime WHATWG URL parser) are modelled at the exact granularity at
which the source consumes them: a fetch is a function from URL strings to
an optional body, a parsed document is a record of the element counts and
anchor lists the source queries for, and the URL parser is modelled for
http(s) URLs (any other string fails to parse, as the runtime parser
throws on scheme-less input such as a bare path).
-/

namespace SiteAudit

/-! ## Character/string helpers (models of the JS string/regex primitives) -/

/-- `leadsWith pat s` holds when the char list `pat` is a prefix of `s`
(model of an anchored `^pat` regex test / `String.prototype.startsWith`). -/
def leadsWith : List Char → List Char → Bool
  | [], _ => true
  | _ :: _, [] => false
  | p :: ps, c :: cs => p == c && leadsWith ps cs

/-- `hasSubChars pat s` holds when `pat` occurs as a contiguous substring of
`s` (model of an unanchored regex test / `String.prototype.includes`). -/
def hasSubChars (pat : List Char) : List Char → Bool
  | [] => pat.isEmpty
  | c :: rest => leadsWith pat (c :: rest) || hasSubChars pat rest

/-- `endsIn pat s`: `pat` is a suffix of `s` (model of a `pat$` regex test). -/
def endsIn (pat s : List Char) : Bool :=
  leadsWith pat.reverse s.reverse

/-- ASCII lowering, as applied by a case-insensitive (`/i`) regex over the
ASCII patterns this source uses. -/
def lowerChars (cs : List Char) : List Char :=
  cs.map Char.toLower

/-- Case-sensitive substring test on strings (JS `String.prototype.includes`). -/
def hasSub (s pat : String) : Bool :=
  hasSubChars pat.toList s.toList

/-- Case-insensitive substring test (an unanchored `/pat/i` regex test). -/
def hasSubCI (s pat : String) : Bool :=
  hasSubChars (lowerChars pat.toList) (lowerChars s.toList)

/-- Case-insensitive suffix test (a `/pat$/i` regex test). -/
def endsInCI (s pat : String) : Bool :=
  endsIn (lowerChars pat.toList) (lowerChars s.toList)

/-- Case-sensitive prefix test (an anchored `/^pat/` regex test). -/
def startsWithStr (s pat : String) : Bool :=
  leadsWith pat.toList s.toList

/-! ## URL parser model

The source calls the runtime's WHATWG `new URL(url)` inside
`extractUrlPattern`, `resolveUrl` and `shouldVisit`, catching the
exception it throws on unparseable input.  The model follows the WHATWG
parser's structure: a URL needs a `scheme:` prefix (a bare path such as
`/product/1234` has none and fails to parse, mirroring the `TypeError`
the runtime raises); an http(s) URL gets the authority/pathname split,
its pathname always starting with `/`; a URL with any other scheme is
parsed the way the runtime parses non-special schemes — no host, and an
*opaque* pathname running from the `:` to the query/fragment, which need
not start with `/` (e.g. `foo:http://x.com/1` has pathname
`http://x.com/1`).  Runtime details with no bearing on any claim are
simplified: the missing-slash tolerance of special schemes (`http:a/1`)
and the authority form of non-special schemes are not given a
hierarchical parse, and hostnames are not lowercased. -/

/-- Result of parsing a URL: hostname (empty for non-special schemes) and
pathname (opaque — possibly not `/`-led — for non-special schemes). -/
structure UrlObj where
  hostname : List Char
  pathname : List Char
  deriving Repr, DecidableEq

/-- A char allowed in a URL scheme after its leading letter. -/
def schemeChar (c : Char) : Bool :=
  c.isAlpha || c.isDigit || c == '+' || c == '-' || c == '.'

/-- Split a leading `scheme:` off a URL string: the scheme starts with an
ASCII letter and continues with letters, digits, `+`, `-` or `.` up to a
`:`.  A string with no such prefix fails to parse. -/
def splitScheme : List Char → Option (List Char × List Char)
  | [] => none
  | c :: rest =>
    if c.isAlpha then
      match rest.dropWhile schemeChar with
      | ':' :: after => some (c :: rest.takeWhile schemeChar, after)
      | _ => none
    else none

/-- A char allowed inside the hostname part. -/
def hostChar (c : Char) : Bool := !(c == '/' || c == '?' || c == '#')

/-- A char allowed inside the pathname part. -/
def pathChar (c : Char) : Bool := !(c == '?' || c == '#')

/-- Split the remainder of an http(s) URL (after `scheme://`) into
hostname and hierarchical pathname. -/
def parseHostPath (rest : List Char) : Option UrlObj :=
  if (rest.takeWhile hostChar).isEmpty then none
  else
    match rest.dropWhile hostChar with
    | '/' :: tail => some ⟨rest.takeWhile hostChar, '/' :: tail.takeWhile pathChar⟩
    | _ => some ⟨rest.takeWhile hostChar, ['/']⟩

/-- Model of `new URL(s)`: http(s) URLs hierarchically, any other scheme
with an opaque pathname, scheme-less strings failing. -/
def parseUrlChars (cs : List Char) : Option UrlObj :=
  match splitScheme cs with
  | none => none
  | some (scheme, after) =>
    if lowerChars scheme = ['h', 't', 't', 'p'] ∨
        lowerChars scheme = ['h', 't', 't', 'p', 's'] then
      match after with
      | '/' :: '/' :: rest => parseHostPath rest
      | _ => none
    else some ⟨[], after.takeWhile pathChar⟩

/-- The parse outcomes on which the generalizer is idempotent: no parse
at all, or a parse whose pathname is hierarchical (starts with `/`). -/
def hierParse : Option UrlObj → Bool
  | none => true
  | some o => o.pathname.head? == some '/'

/-! ## URL pattern generalizer (`SiteCrawler.extractUrlPattern`)

```
return path.replace(/\/\d+/g, '/:id')
           .replace(/\/[a-f0-9-]{20,}/g, '/:uuid')
           .replace(/\?.*$/, '');
```

Each global regex replace is implemented as a left-to-right scanning
automaton over the char list; matches start at a `/`, consume the maximal
run, and scanning resumes immediately after the consumed run, exactly as
the JS regex engine does. -/

/-- Scanner state for the `/\/\d+/g → '/:id'` replacement. -/
inductive IMode
  /-- scanning for the next `/` -/
  | scan
  /-- just consumed a `/`, deciding whether a digit run follows -/
  | sawSlash
  /-- inside a digit run that has been replaced by `/:id` -/
  | inRun
  deriving Repr, DecidableEq

/-- `path.replace(/\/\d+/g, '/:id')`: every `/` followed by a maximal
nonempty digit run becomes `/:id`. -/
def replIdGo : IMode → List Char → List Char
  | .scan, [] => []
  | .scan, c :: rest => if c = '/' then replIdGo .sawSlash rest else c :: replIdGo .scan rest
  | .sawSlash, [] => ['/']
  | .sawSlash, c :: rest =>
    if c.isDigit then '/' :: ':' :: 'i' :: 'd' :: replIdGo .inRun rest
    else if c = '/' then '/' :: replIdGo .sawSlash rest
    else '/' :: c :: replIdGo .scan rest
  | .inRun, [] => []
  | .inRun, c :: rest =>
    if c.isDigit then replIdGo .inRun rest
    else if c = '/' then replIdGo .sawSlash rest
    else c :: replIdGo .scan rest

/-- A char of the class `[a-f0-9-]` of the uuid regex. -/
def uuidChar (c : Char) : Bool :=
  c.isDigit || (('a' ≤ c) && (c ≤ 'f')) || c == '-'

/-- Scanner state for the `/\/[a-f0-9-]{20,}/g → '/:uuid'` replacement:
either scanning, or accumulating a candidate run after a `/`. -/
inductive UMode
  /-- scanning for the next `/` -/
  | scan
  /-- after a `/`, accumulating the run seen so far (reversed) -/
  | slurp (acc : List Char)
  deriving Repr, DecidableEq

/-- Emit a finished candidate run: the `/` and its run, replaced by
`/:uuid` when the run has length ≥ 20. -/
def emitRun (acc : List Char) : List Char :=
  if 20 ≤ acc.length then ['/', ':', 'u', 'u', 'i', 'd'] else '/' :: acc.reverse

/-- `path.replace(/\/[a-f0-9-]{20,}/g, '/:uuid')`: every `/` followed by a
maximal run of ≥ 20 chars from `[a-f0-9-]` becomes `/:uuid`. -/
def replUuidGo : UMode → List Char → List Char
  | .scan, [] => []
  | .scan, c :: rest => if c = '/' then replUuidGo (.slurp []) rest else c :: replUuidGo .scan rest
  | .slurp acc, [] => emitRun acc
  | .slurp acc, c :: rest =>
    if uuidChar c then replUuidGo (.slurp (c :: acc)) rest
    else if c = '/' then emitRun acc ++ replUuidGo (.slurp []) rest
    else emitRun acc ++ c :: replUuidGo .scan rest

/-- `path.replace(/\?.*$/, '')`: drop everything from the first `?` that
has no later newline (the JS `.` does not cross `\n` and `$` anchors at
the very end). -/
def stripQuery : List Char → List Char
  | [] => []
  | c :: rest =>
    if c = '?' then
      if rest.contains '\n' then c :: stripQuery rest else []
    else c :: stripQuery rest

/-- The three chained replaces applied to a pathname. -/
def generalizeChars (cs : List Char) : List Char :=
  stripQuery (replUuidGo .scan (replIdGo .scan cs))

/-- `SiteCrawler.extractUrlPattern`: parse the URL, generalize its
pathname; on a parse failure (the `catch` branch) return the input
unchanged. -/
def extractUrlPattern (url : String) : String :=
  match parseUrlChars url.toList with
  | some o => String.mk (generalizeChars o.pathname)
  | none => url


/-! ## Data model (`src/types.ts`) -/

/-- `PageTemplateType` enum of `src/types.ts`. -/
inductive PageTemplateType
  | PDP | PLP | CATEGORY | HOME | SEARCH | CART | CHECKOUT | ACCOUNT | CONTENT | UNKNOWN
  deriving Repr, DecidableEq

/-- `EntityType` enum of `src/types.ts`. -/
inductive EntityType
  | CATEGORY | SUBCATEGORY | BRAND | COLLECTION
  deriving Repr, DecidableEq

/-- `PageTemplate` interface of `src/types.ts`. -/
structure PageTemplate where
  type : PageTemplateType
  urlPattern : String
  exampleUrls : List String
  characteristics : List String
  detectedElements : List String
  deriving Repr, DecidableEq

/-- `SiteEntity` interface of `src/types.ts` (the crawler never sets
`parentCategory`, so it stays `none`). -/
structure SiteEntity where
  type : EntityType
  name : String
  url : String
  parentCategory : Option String := none
  deriving Repr, DecidableEq

/-! ## Parsed-document model

`cheerio.load` and the selector queries are the external document-query
capability.  A `Doc` records exactly the observations the source makes of
a loaded page: one count per selector expression it evaluates, plus the
anchor lists its two extraction scans produce. -/

/-- An anchor element as the extractors see it: its `href` attribute and
trimmed text.  A missing `href` attribute is modelled as the empty string
(both fail the JS truthiness test the source applies). -/
structure Anchor where
  href : String
  text : String
  deriving Repr, DecidableEq

/-- The observations `SiteCrawler` makes of one loaded document. -/
structure Doc where
  /-- matches of the add-to-cart selector whose text contains "add" and "cart" -/
  addToCartCount : Nat
  /-- matches of `[class*="product-title"], [class*="productTitle"], h1[class*="product"]` -/
  productTitleCount : Nat
  /-- matches of `[class*="product-image"], [class*="productImage"], .product-gallery` -/
  productImageCount : Nat
  /-- matches of `[class*="price"]` -/
  priceCount : Nat
  /-- matches of `[class*="sku"], [class*="product-id"]` -/
  skuCount : Nat
  /-- matches of `a[href*="/product"], a[href*="/p/"], a[class*="product"]` -/
  productLinkCount : Nat
  /-- matches of `[class*="filter"], [class*="facet"], [class*="refine"]` -/
  filterCount : Nat
  /-- matches of `[class*="pagination"], [class*="pager"]` -/
  paginationCount : Nat
  /-- matches of `[class*="cart"], [class*="basket"]` -/
  cartElemCount : Nat
  /-- matches of `[class*="search-results"]` -/
  searchResultsCount : Nat
  /-- matches of `nav, header nav, .navigation, [role="navigation"]` -/
  navCount : Nat
  /-- matches of `footer` -/
  footerCount : Nat
  /-- matches of `[class*="product"], [class*="item"]` -/
  productItemClassCount : Nat
  /-- the anchors yielded, in order, by the navigation selector scan of
  `extractCategoryLinks` -/
  navAnchors : List Anchor
  /-- the anchors yielded, in order, by the product selector scan of
  `extractProductLinks` -/
  productAnchors : List Anchor
  deriving Repr, DecidableEq

/-! ## Page classifier (`SiteCrawler.analyzePageTemplate` and helpers) -/

/-- `SiteCrawler.isProductDetailPage`: five boolean indicators; the page
is a product detail page when at least two hold. -/
def isProductDetailPage (d : Doc) : Bool :=
  let indicators : List Bool := [
    decide (0 < d.addToCartCount),
    decide (0 < d.productTitleCount),
    decide (0 < d.productImageCount),
    decide (0 < d.priceCount) && decide (d.priceCount < 10),
    decide (0 < d.skuCount)]
  decide (2 ≤ (indicators.filter (fun b => b)).length)

/-- `SiteCrawler.isCategoryPage`. -/
def isCategoryPage (d : Doc) : Bool :=
  decide (5 < d.productLinkCount) ||
    (decide (2 < d.productLinkCount) &&
      (decide (0 < d.filterCount) || decide (0 < d.paginationCount)))

/-- `SiteCrawler.isCartPage`. -/
def isCartPage (d : Doc) (url : String) : Bool :=
  hasSub url "/cart" || hasSub url "/basket" || decide (3 < d.cartElemCount)

/-- `SiteCrawler.isSearchPage`. -/
def isSearchPage (d : Doc) (url : String) : Bool :=
  hasSub url "search" || hasSub url "?q=" || hasSub url "?query=" ||
    decide (0 < d.searchResultsCount)

/-- `SiteCrawler.analyzePageTemplate`: the priority chain PDP → Category →
Home → Cart → Search → Unknown, plus detected elements and the URL
pattern. -/
def analyzePageTemplate (baseUrl url : String) (d : Doc) : PageTemplate :=
  let tc : PageTemplateType × List String :=
    if isProductDetailPage d then
      (.PDP, ["Has product title", "Has add to cart button", "Has product images"])
    else if isCategoryPage d then
      (.CATEGORY, ["Has product grid", "Has filters/facets", "Has multiple product links"])
    else if url = baseUrl ∨ url = baseUrl ++ "/" then
      (.HOME, ["Root URL", "Has hero banner", "Has navigation menu"])
    else if isCartPage d url then
      (.CART, ["Has cart items", "Has checkout button"])
    else if isSearchPage d url then
      (.SEARCH, ["Has search results", "Has search query"])
    else (.UNKNOWN, [])
  { type := tc.1
    urlPattern := extractUrlPattern url
    exampleUrls := [url]
    characteristics := tc.2
    detectedElements :=
      (if 0 < d.navCount then ["Navigation"] else []) ++
      (if 0 < d.footerCount then ["Footer"] else []) ++
      (if 5 < d.productItemClassCount then ["Product Grid"] else []) }

/-! ## Link heuristics (`looksLikeCategoryLink`, extractors, `resolveUrl`,
`shouldVisit`) -/

/-- The `excludePatterns` tests of `SiteCrawler.looksLikeCategoryLink`,
applied to one string (href or text). -/
def excludeHit (s : String) : Bool :=
  (["/login", "/signup", "/account", "/profile", "/cart", "/checkout", "/about",
    "/contact", "/help", "/faq", "/privacy", "/terms"].any fun w => hasSubCI s w) ||
  ([".jpg", ".jpeg", ".png", ".gif", ".svg", ".pdf", ".zip"].any fun w => endsInCI s w) ||
  (startsWithStr s "mailto:" || startsWithStr s "tel:" || startsWithStr s "#") ||
  (["/search", "/blog", "/news", "/article"].any fun w => hasSubCI s w)

/-- The regex `^\/[a-z0-9-]+\/?$`: a simple single-segment path such as
`/electronics` or `/mens-clothing`. -/
def simpleSegPath (s : String) : Bool :=
  match s.toList with
  | '/' :: rest =>
    let core := rest.takeWhile fun c => (('a' ≤ c) && (c ≤ 'z')) || c.isDigit || c == '-'
    !core.isEmpty &&
      (match rest.dropWhile fun c => (('a' ≤ c) && (c ≤ 'z')) || c.isDigit || c == '-' with
        | [] => true
        | ['/'] => true
        | _ => false)
  | _ => false

/-- The `includePatterns` tests of `SiteCrawler.looksLikeCategoryLink`,
applied to the href. -/
def includeHit (href : String) : Bool :=
  (["/category", "/categories", "/c", "/cat", "/collection", "/collections",
    "/dept", "/department"].any fun w => hasSubCI href w) ||
  simpleSegPath href

/-- The category keyword list of `looksLikeCategoryLink`. -/
def categoryWords : List String :=
  ["shop", "men", "women", "kids", "sale", "new", "electronics", "clothing", "home"]

/-- `SiteCrawler.looksLikeCategoryLink`. -/
def looksLikeCategoryLink (href text : String) : Bool :=
  if excludeHit href || excludeHit text then false
  else if includeHit href then true
  else categoryWords.any fun w => hasSubChars w.toList (lowerChars text.toList)

/-- The dedup-and-filter scan of `extractCategoryLinks` over the anchors
the navigation selectors yield (the `seen` set only records accepted
hrefs, as in the source). -/
def collectCat : List Anchor → List String → List Anchor
  | [], _ => []
  | a :: rest, seen =>
    if a.href ≠ "" ∧ a.text ≠ "" ∧ a.href ∉ seen then
      if looksLikeCategoryLink a.href a.text then
        a :: collectCat rest (a.href :: seen)
      else collectCat rest seen
    else collectCat rest seen

/-- `SiteCrawler.extractCategoryLinks`: filtered nav anchors, at most 20. -/
def extractCategoryLinks (d : Doc) : List Anchor :=
  (collectCat d.navAnchors []).take 20

/-- The dedup scan of `extractProductLinks` over the anchors the product
selectors yield. -/
def collectProd : List Anchor → List String → List Anchor
  | [], _ => []
  | a :: rest, seen =>
    if a.href ≠ "" ∧ a.href ∉ seen then
      a :: collectProd rest (a.href :: seen)
    else collectProd rest seen

/-- `SiteCrawler.extractProductLinks`: deduplicated product anchors, at
most 10. -/
def extractProductLinks (d : Doc) : List Anchor :=
  (collectProd d.productAnchors []).take 10

/-- `SiteCrawler.resolveUrl`, a model of `new URL(url, baseUrl).toString()`
with the `catch` branch returning the input: an absolute http(s) URL is
kept, any other string is resolved against the (already parseable) base,
and when even the base fails to parse the input is returned unchanged. -/
def resolveUrl (baseUrl url : String) : String :=
  match parseUrlChars url.toList with
  | some _ => url
  | none =>
    match parseUrlChars baseUrl.toList with
    | some _ =>
      if startsWithStr url "/" then baseUrl ++ url else baseUrl ++ "/" ++ url
    | none => url

/-- `SiteCrawler.shouldVisit`: same hostname as the base, and neither a
static-asset extension nor a non-content path prefix. -/
def shouldVisit (baseUrl url : String) : Bool :=
  match parseUrlChars url.toList, parseUrlChars baseUrl.toList with
  | some u, some b =>
    if u.hostname ≠ b.hostname then false
    else
      !(([".jpg", ".jpeg", ".png", ".gif", ".svg", ".pdf", ".zip", ".css", ".js",
          ".json", ".xml"].any fun w => endsInCI url w) ||
        (["/api/", "/cdn/", "/static/", "/assets/", "/media/"].any fun w => hasSubCI url w))
  | _, _ => false

/-! ## Crawl orchestrator (`SiteCrawler.analyzeSite`) -/

/-- The external world one run talks to: the fetch capability (`some body`
on a 2xx response, `none` on any network error or non-2xx status — the
source treats both identically) and the document parser `cheerio.load`
(total on strings). -/
structure Site where
  net : String → Option String
  parse : String → Doc

/-- Which call site performed a page fetch (instrumentation recorded for
the accounting invariants; the disallow-policy fetch goes through plain
`fetch`, not `fetchPage`, and is not logged). -/
inductive Origin
  | root | candidate | sample
  deriving Repr, DecidableEq

/-- One performed page fetch: the URL, the call site, and whether the
fetch returned a body. -/
structure FetchRec where
  url : String
  origin : Origin
  ok : Bool
  deriving Repr, DecidableEq

/-- `r.origin = candidate ∧ r.ok`, as a Bool. -/
def isCandOk (r : FetchRec) : Bool :=
  (match r.origin with | .candidate => true | _ => false) && r.ok

/-- The mutable state one `analyzeSite` run accumulates: the `visitedUrls`
set (as a list, newest first), the `templates` map (as an insertion-ordered
association list, like a JS `Map`), the `entities` and `siteMap` lists, and
the ghost log of performed page fetches. -/
structure CrawlState where
  visited : List String
  templates : List (PageTemplateType × PageTemplate)
  entities : List SiteEntity
  siteMap : List String
  fetchLog : List FetchRec
  deriving Repr

/-- The state a run starts from. -/
def initState : CrawlState := ⟨[], [], [], [], []⟩

/-- First value bound to `k` in the association list (JS `Map.get`). -/
def tfind (k : PageTemplateType) : List (PageTemplateType × PageTemplate) → Option PageTemplate
  | [] => none
  | (k', v) :: rest => if k' = k then some v else tfind k rest

/-- JS `Map.set`: replace in place when the key is present, else append. -/
def mapSet (m : List (PageTemplateType × PageTemplate)) (k : PageTemplateType)
    (v : PageTemplate) : List (PageTemplateType × PageTemplate) :=
  if (tfind k m).isSome then m.map fun p => if p.1 = k then (k, v) else p
  else m ++ [(k, v)]

/-- `SiteCrawler.fetchPage`: `null` without touching the network when the
URL was already visited; otherwise mark it visited and fetch (`null` also
on failure). -/
def fetchPage (net : String → Option String) (visited : List String) (url : String) :
    Option String × List String :=
  if url ∈ visited then (none, visited)
  else (net url, url :: visited)

/-- `fetchPage` acting on a `CrawlState`, additionally appending a ghost
`FetchRec` when the network is actually consulted. -/
def fetchPageL (net : String → Option String) (origin : Origin) (st : CrawlState)
    (url : String) : Option String × CrawlState :=
  if url ∈ st.visited then (none, st)
  else
    (net url,
      { st with
        visited := url :: st.visited
        fetchLog := st.fetchLog ++ [⟨url, origin, (net url).isSome⟩] })


/-- Lines 58–69 of `analyzeSite`: on a Category/PLP classification, push a
Category entity and record the template if that type is not yet present. -/
def recordCategory (linkText fullUrl : String) (template : PageTemplate)
    (st : CrawlState) : CrawlState :=
  if template.type = .CATEGORY ∨ template.type = .PLP then
    let st1 := { st with entities := st.entities ++
      [{ type := .CATEGORY, name := linkText, url := fullUrl }] }
    if (tfind template.type st1.templates).isSome then st1
    else { st1 with templates := mapSet st1.templates template.type template }
  else st

/-- Lines 71–88 of `analyzeSite`: on a Category/PLP page, sample the first
extracted product link (when no PDP template exists yet), fetch it, and
record the PDP template if the sample classifies as PDP. -/
def sampleProduct (site : Site) (baseUrl html : String) (template : PageTemplate)
    (st : CrawlState) : CrawlState :=
  if template.type = .CATEGORY ∨ template.type = .PLP then
    match extractProductLinks (site.parse html) with
    | [] => st
    | p :: _ =>
      if (tfind .PDP st.templates).isSome then st
      else
        let productUrl := resolveUrl baseUrl p.href
        match fetchPageL site.net .sample st productUrl with
        | (none, st') => st'
        | (some phtml, st') =>
          let pdpTemplate := analyzePageTemplate baseUrl productUrl (site.parse phtml)
          if pdpTemplate.type = .PDP then
            { st' with templates := mapSet st'.templates .PDP pdpTemplate }
          else st'
  else st

/-- The body of the candidate loop of `analyzeSite` (lines 46–90, after
the budget check): resolve, filter, fetch, push to the site map, classify,
record entity/template, sample a product. -/
def processCandidate (site : Site) (baseUrl : String) (st : CrawlState)
    (link : Anchor) : CrawlState :=
  let fullUrl := resolveUrl baseUrl link.href
  if !shouldVisit baseUrl fullUrl then st
  else
    match fetchPageL site.net .candidate st fullUrl with
    | (none, st') => st'
    | (some html, st') =>
      let st1 := { st' with siteMap := st'.siteMap ++ [fullUrl] }
      let template := analyzePageTemplate baseUrl fullUrl (site.parse html)
      sampleProduct site baseUrl html template (recordCategory link.text fullUrl template st1)

/-- The candidate loop with its budget break:
`if (this.visitedUrls.size >= this.maxPages) break`. -/
def crawlLoop (site : Site) (baseUrl : String) (maxPages : Nat) :
    CrawlState → List Anchor → CrawlState
  | st, [] => st
  | st, link :: rest =>
    if maxPages ≤ st.visited.length then st
    else crawlLoop site baseUrl maxPages (processCandidate site baseUrl st link) rest

/-- The constructor's `baseUrl.replace(/\/$/, '')`: drop one trailing
slash. -/
def stripTrailingSlash (s : String) : String :=
  match s.toList.reverse with
  | '/' :: rest => String.mk rest.reverse
  | _ => s

/-- The crawl of `analyzeSite` (root fetch, Home template, candidate
loop), returning the final accumulated state. -/
def runCrawl (site : Site) (rootUrl : String) (maxPages : Nat) : CrawlState :=
  let baseUrl := stripTrailingSlash rootUrl
  match fetchPageL site.net .root initState baseUrl with
  | (none, st) => st
  | (some html, st) =>
    let homeTemplate := analyzePageTemplate baseUrl baseUrl (site.parse html)
    let st1 := { st with templates := mapSet st.templates .HOME homeTemplate }
    crawlLoop site baseUrl maxPages st1 (extractCategoryLinks (site.parse html))

/-- `SiteStructure` of `src/types.ts` (the `analyzedAt` wall-clock
timestamp comes from the ambient clock and carries no logic; it is not
modelled). -/
structure SiteStructure where
  domain : String
  templates : List (PageTemplateType × PageTemplate)
  entities : List SiteEntity
  siteMap : List String
  robotsTxt : Option String
  deriving Repr

/-- `SiteCrawler.fetchRobotsTxt`: a best-effort plain fetch of
`baseUrl + "/robots.txt"` that does not touch the visited set. -/
def fetchRobotsTxt (site : Site) (baseUrl : String) : Option String :=
  site.net (baseUrl ++ "/robots.txt")

/-- `SiteCrawler.analyzeSite`: the full run, assembling the returned
model. -/
def analyzeSite (site : Site) (rootUrl : String) (maxPages : Nat) : SiteStructure :=
  let baseUrl := stripTrailingSlash rootUrl
  let st := runCrawl site rootUrl maxPages
  { domain := baseUrl
    templates := st.templates
    entities := st.entities
    siteMap := st.siteMap
    robotsTxt := fetchRobotsTxt site baseUrl }

/-! ## Concrete worlds used by counterexamples and witnesses -/

/-- A document with no notable elements and no links. -/
def emptyDoc : Doc := ⟨0, 0, 0, 0, 0, 0, 0, 0, 0, 0, 0, 0, 0, [], []⟩

/-- A world in which every fetch fails. -/
def noNetSite : Site := ⟨fun _ => none, fun _ => emptyDoc⟩

/-- A world in which only the root URL `http://a.com` fetches (body `"h"`)
and every page parses to the featureless document. -/
def rootOnlySite : Site :=
  ⟨fun u => if u = "http://a.com" then some "h" else none, fun _ => emptyDoc⟩

/-- A category-looking document: more than five product links (and no
navigation anchors, so the crawl stops at the root). -/
def catRootDoc : Doc := { emptyDoc with productLinkCount := 6 }

/-- A world whose root page looks like a category listing. -/
def catRootSite : Site :=
  ⟨fun u => if u = "http://a.com" then some "h" else none, fun _ => catRootDoc⟩

/-! ## The run invariant

All the bookkeeping one crawl run maintains: the visited set is
duplicate-free and coincides with the URLs of the performed fetches, each
fetch log entry records the network's actual answer, the site map is
exactly the successful candidate fetches, the site map stays strictly
below the visited count (the root is visited but never mapped), the
template map has duplicate-free keys, and the entity URLs form a sublist
of the site map. -/

structure Inv (net : String → Option String) (st : CrawlState) : Prop where
  nodupVisited : st.visited.Nodup
  logUrls : st.fetchLog.map FetchRec.url = st.visited.reverse
  okCorrect : ∀ r ∈ st.fetchLog, r.ok = (net r.url).isSome
  mapEq : st.siteMap = (st.fetchLog.filter isCandOk).map FetchRec.url
  mapLt : st.siteMap.length + 1 ≤ st.visited.length
  keysNodup : (st.templates.map Prod.fst).Nodup
  entSub : (st.entities.map SiteEntity.url).Sublist st.siteMap

/-! ## Proofs -/

/-! ### Idempotence of the generalizer

A generalized pattern always starts with `/`, and a string starting with
`/` has no http(s) scheme, so the second application always takes the
parse-failure branch and returns its input unchanged. -/

theorem replIdGo_sawSlash_head (t : List Char) :
    ∃ l, replIdGo .sawSlash t = '/' :: l := by
  cases t with
  | nil => exact ⟨[], rfl⟩
  | cons c rest =>
    simp only [replIdGo]
    split
    · exact ⟨_, rfl⟩
    · split
      · exact ⟨_, rfl⟩
      · exact ⟨_, rfl⟩

theorem emitRun_head (acc : List Char) : ∃ l, emitRun acc = '/' :: l := by
  unfold emitRun
  split
  · exact ⟨_, rfl⟩
  · exact ⟨_, rfl⟩

theorem replUuidGo_slurp_head (t : List Char) (acc : List Char) :
    ∃ l, replUuidGo (.slurp acc) t = '/' :: l := by
  induction t generalizing acc with
  | nil => exact emitRun_head acc
  | cons c rest ih =>
    simp only [replUuidGo]
    split
    · exact ih _
    · obtain ⟨l, hl⟩ := emitRun_head acc
      split
      · exact ⟨l ++ replUuidGo (.slurp []) rest, by rw [hl]; rfl⟩
      · exact ⟨l ++ c :: replUuidGo .scan rest, by rw [hl]; rfl⟩

theorem stripQuery_slash_cons (m : List Char) :
    stripQuery ('/' :: m) = '/' :: stripQuery m := by
  simp [stripQuery]

theorem generalizeChars_head (t : List Char) :
    ∃ l, generalizeChars ('/' :: t) = '/' :: l := by
  unfold generalizeChars
  have h1 : replIdGo .scan ('/' :: t) = replIdGo .sawSlash t := by simp [replIdGo]
  rw [h1]
  obtain ⟨l1, hl1⟩ := replIdGo_sawSlash_head t
  rw [hl1]
  have h2 : replUuidGo .scan ('/' :: l1) = replUuidGo (.slurp []) l1 := by simp [replUuidGo]
  rw [h2]
  obtain ⟨l2, hl2⟩ := replUuidGo_slurp_head l1 []
  rw [hl2, stripQuery_slash_cons]
  exact ⟨_, rfl⟩

theorem parseUrlChars_slash_none (l : List Char) :
    parseUrlChars ('/' :: l) = none := by
  have halpha : ('/' : Char).isAlpha = false := by decide
  simp [parseUrlChars, splitScheme, halpha]

theorem hierParse_some {o : UrlObj} (h : hierParse (some o) = true) :
    ∃ t, o.pathname = '/' :: t := by
  have h' : (o.pathname.head? == some '/') = true := h
  rw [beq_iff_eq] at h'
  cases hpn : o.pathname with
  | nil => rw [hpn] at h'; simp at h'
  | cons c rest =>
    rw [hpn] at h'
    simp at h'
    exact ⟨rest, by rw [h']⟩

/-- C3 counterexample: `extractUrlPattern` is not idempotent on every
input string.  `new URL("foo:http://x.com/1")` parses with the *opaque*
pathname `http://x.com/1` (non-special scheme), which generalizes to
`http://x.com/:id` — and that reparses as an http URL, so a second
application yields `/:id` instead. -/
theorem extractUrlPattern_opaque_cex :
    extractUrlPattern "foo:http://x.com/1" = "http://x.com/:id" ∧
    extractUrlPattern (extractUrlPattern "foo:http://x.com/1") ≠
      extractUrlPattern "foo:http://x.com/1" := by
  refine ⟨by decide, by decide⟩

/-- C3 (amended): `extractUrlPattern` is idempotent on every input string
that fails URL parsing (e.g. a bare path) and on every input whose parsed
pathname is hierarchical, i.e. starts with `/` — in particular on every
http(s) URL.  (An input that parses under a non-http(s) scheme with an
opaque pathname not starting with `/` is the one exception, per the
counterexample.) -/
theorem extractUrlPattern_idem (u : String)
    (h : hierParse (parseUrlChars u.toList) = true) :
    extractUrlPattern (extractUrlPattern u) = extractUrlPattern u := by
  unfold extractUrlPattern
  cases hp : parseUrlChars u.data with
  | none => simp [hp]
  | some o =>
    have h' : hierParse (parseUrlChars u.data) = true := h
    rw [hp] at h'
    obtain ⟨t, ht⟩ := hierParse_some h'
    obtain ⟨l, hl⟩ := generalizeChars_head t
    have hmk : ∀ m : List Char, (String.mk m).toList = m := fun _ => rfl
    simp only [hp, ht, hl, hmk, parseUrlChars_slash_none]

/-- C3 witness: the amended idempotence applied to a concrete http(s)
URL. -/
theorem extractUrlPattern_idem_witness :
    hierParse (parseUrlChars "https://example.com/product/1234".toList) = true ∧
    extractUrlPattern (extractUrlPattern "https://example.com/product/1234") =
      extractUrlPattern "https://example.com/product/1234" :=
  ⟨by decide, extractUrlPattern_idem "https://example.com/product/1234" (by decide)⟩

/-- C4 counterexample: on the literal input `/product/1234` the source's
`extractUrlPattern` does not return `/product/:id` — `new URL` throws on a
bare path, so the `catch` branch returns the input unchanged. -/
theorem extractUrlPattern_bare_path_cex :
    extractUrlPattern "/product/1234" ≠ "/product/:id" := by decide

/-- C4 (amended): the three mappings of the claim hold when the inputs are
full URLs carrying the stated paths — `…/product/1234 ↦ /product/:id`,
`…/p/abc123def456abc123def456 ↦ /p/:uuid`, and
`…/category/electronics?page=2 ↦ /category/electronics` (path kept, query
dropped, digit-run segments replaced by `:id`, long hex/dash segments by
`:uuid`) — while a bare-path input such as `/product/1234` fails URL
parsing and is returned unchanged. -/
theorem extractUrlPattern_examples :
    extractUrlPattern "https://example.com/product/1234" = "/product/:id" ∧
    extractUrlPattern "https://example.com/p/abc123def456abc123def456" = "/p/:uuid" ∧
    extractUrlPattern "https://example.com/category/electronics?page=2" =
      "/category/electronics" ∧
    extractUrlPattern "/product/1234" = "/product/1234" := by
  refine ⟨by decide, by decide, by decide, by decide⟩

/-- `fetchPageL` is `fetchPage` plus the ghost log. -/
theorem fetchPageL_eq_fetchPage (net : String → Option String) (origin : Origin)
    (st : CrawlState) (url : String) :
    ((fetchPageL net origin st url).1, (fetchPageL net origin st url).2.visited) =
      fetchPage net st.visited url := by
  unfold fetchPageL fetchPage
  split <;> rfl

/-! ## Association-list lemmas for the template map -/

theorem tfind_append_of_some {k : PageTemplateType} {v : PageTemplate}
    {m : List (PageTemplateType × PageTemplate)} (l : List (PageTemplateType × PageTemplate))
    (h : tfind k m = some v) : tfind k (m ++ l) = some v := by
  induction m with
  | nil => simp [tfind] at h
  | cons p rest ih =>
    obtain ⟨k', v'⟩ := p
    simp only [tfind, List.cons_append] at h ⊢
    by_cases hk : k' = k
    · simpa [hk] using h
    · rw [if_neg hk] at h ⊢
      exact ih h

theorem tfind_none_not_mem {k : PageTemplateType}
    {m : List (PageTemplateType × PageTemplate)} :
    tfind k m = none → k ∉ m.map Prod.fst := by
  induction m with
  | nil => intro _; simp
  | cons p rest ih =>
    obtain ⟨k', v'⟩ := p
    intro h
    simp only [tfind] at h
    by_cases hk : k' = k
    · simp [hk] at h
    · rw [if_neg hk] at h
      simp only [List.map_cons, List.mem_cons]
      rintro (heq | hmem)
      · exact hk heq.symm
      · exact ih h hmem

theorem mapSet_of_not_found {k : PageTemplateType} {v : PageTemplate}
    {m : List (PageTemplateType × PageTemplate)} (h : tfind k m = none) :
    mapSet m k v = m ++ [(k, v)] := by
  unfold mapSet
  simp [h]

theorem keys_nodup_append {k : PageTemplateType} {v : PageTemplate}
    {m : List (PageTemplateType × PageTemplate)} (hn : (m.map Prod.fst).Nodup)
    (h : tfind k m = none) : ((m ++ [(k, v)]).map Prod.fst).Nodup := by
  have := tfind_none_not_mem h
  simp [List.nodup_append, hn, this]


theorem fetchPageL_mem {net : String → Option String} {o : Origin} {st : CrawlState}
    {url : String} (h : url ∈ st.visited) : fetchPageL net o st url = (none, st) := by
  simp [fetchPageL, h]

theorem fetchPageL_not_mem {net : String → Option String} {o : Origin} {st : CrawlState}
    {url : String} (h : url ∉ st.visited) :
    fetchPageL net o st url =
      (net url,
        { st with visited := url :: st.visited,
                  fetchLog := st.fetchLog ++ [⟨url, o, (net url).isSome⟩] }) := by
  simp [fetchPageL, h]

/-- Updating only `entities` and `templates` preserves the invariant, given
the two fields' own conditions. -/
theorem inv_update_ents_tmpls {net : String → Option String} {st : CrawlState}
    (inv : Inv net st) {e' : List SiteEntity} {t' : List (PageTemplateType × PageTemplate)}
    (he : (e'.map SiteEntity.url).Sublist st.siteMap) (ht : (t'.map Prod.fst).Nodup) :
    Inv net { st with entities := e', templates := t' } :=
  ⟨inv.nodupVisited, inv.logUrls, inv.okCorrect, inv.mapEq, inv.mapLt, ht, he⟩

/-- Logging a fetch that is not a successful candidate fetch (failure, or
a root/sample fetch) preserves the invariant. -/
theorem inv_log {net : String → Option String} {st : CrawlState} {url : String}
    (o : Origin) (inv : Inv net st) (hnv : url ∉ st.visited)
    (hc : isCandOk ⟨url, o, (net url).isSome⟩ = false) :
    Inv net { st with visited := url :: st.visited,
                      fetchLog := st.fetchLog ++ [⟨url, o, (net url).isSome⟩] } := by
  constructor
  · exact List.nodup_cons.mpr ⟨hnv, inv.nodupVisited⟩
  · simp [inv.logUrls]
  · intro r hr
    rcases List.mem_append.mp hr with hr | hr
    · exact inv.okCorrect r hr
    · simp at hr
      subst hr
      rfl
  · simp [List.filter_append, inv.mapEq, hc]
  · exact Nat.le_succ_of_le inv.mapLt
  · exact inv.keysNodup
  · exact inv.entSub

/-- Logging a successful candidate fetch together with its site-map push
preserves the invariant. -/
theorem inv_log_cand_ok {net : String → Option String} {st : CrawlState} {url : String}
    (inv : Inv net st) (hnv : url ∉ st.visited) (hok : (net url).isSome = true) :
    Inv net { st with visited := url :: st.visited,
                      fetchLog := st.fetchLog ++ [⟨url, .candidate, true⟩],
                      siteMap := st.siteMap ++ [url] } := by
  constructor
  · exact List.nodup_cons.mpr ⟨hnv, inv.nodupVisited⟩
  · simp [inv.logUrls]
  · intro r hr
    rcases List.mem_append.mp hr with hr | hr
    · exact inv.okCorrect r hr
    · simp at hr
      subst hr
      exact hok.symm
  · simp [List.filter_append, inv.mapEq, isCandOk]
  · simpa using Nat.succ_le_succ inv.mapLt
  · exact inv.keysNodup
  · exact inv.entSub.trans (List.sublist_append_left _ _)

/-- `recordCategory` preserves the invariant, provided the entity URL it
may push is appendable to the entity-URL sublist of the site map (it is:
the caller pushed `fullUrl` onto the site map in the same iteration). -/
theorem inv_recordCategory {net : String → Option String} {st : CrawlState}
    {lt fullUrl : String} {tpl : PageTemplate} (inv : Inv net st)
    (hu : (st.entities.map SiteEntity.url ++ [fullUrl]).Sublist st.siteMap) :
    Inv net (recordCategory lt fullUrl tpl st) := by
  unfold recordCategory
  dsimp only
  split
  · split
    · exact inv_update_ents_tmpls inv (by simpa using hu) inv.keysNodup
    · rename_i hfound
      have hnone : tfind tpl.type st.templates = none := by
        cases h : tfind tpl.type st.templates with
        | none => rfl
        | some v => simp [h] at hfound
      refine inv_update_ents_tmpls inv (by simpa using hu) ?_
      rw [mapSet_of_not_found hnone]
      exact keys_nodup_append inv.keysNodup hnone
  · exact inv

/-- `sampleProduct` preserves the invariant (the sample fetch is logged as
a non-candidate fetch, and the PDP template is only set when absent). -/
theorem inv_sampleProduct (site : Site) (baseUrl html : String) (tpl : PageTemplate)
    {st : CrawlState} (inv : Inv site.net st) :
    Inv site.net (sampleProduct site baseUrl html tpl st) := by
  unfold sampleProduct
  dsimp only
  split
  · cases hpl : extractProductLinks (site.parse html) with
    | nil => exact inv
    | cons p tail =>
      dsimp only
      split
      · exact inv
      · rename_i hpdp
        have hnone : tfind .PDP st.templates = none := by
          cases h : tfind .PDP st.templates with
          | none => rfl
          | some v => simp [h] at hpdp
        by_cases hv : resolveUrl baseUrl p.href ∈ st.visited
        · rw [fetchPageL_mem hv]
          exact inv
        · rw [fetchPageL_not_mem hv]
          cases hnet : site.net (resolveUrl baseUrl p.href) with
          | none =>
            have h1 := inv_log .sample inv hv (by simp [isCandOk])
            rw [hnet] at h1
            exact h1
          | some ph =>
            have h1 := inv_log .sample inv hv (by simp [isCandOk])
            rw [hnet] at h1
            dsimp only
            split
            · refine inv_update_ents_tmpls h1 h1.entSub ?_
              rw [mapSet_of_not_found hnone]
              exact keys_nodup_append inv.keysNodup hnone
            · exact h1
  · exact inv

/-- One candidate-loop iteration preserves the invariant. -/
theorem inv_processCandidate (site : Site) (baseUrl : String) (link : Anchor)
    {st : CrawlState} (inv : Inv site.net st) :
    Inv site.net (processCandidate site baseUrl st link) := by
  unfold processCandidate
  dsimp only
  split
  · exact inv
  · by_cases hv : resolveUrl baseUrl link.href ∈ st.visited
    · rw [fetchPageL_mem hv]
      exact inv
    · rw [fetchPageL_not_mem hv]
      cases hnet : site.net (resolveUrl baseUrl link.href) with
      | none =>
        have h1 := inv_log .candidate inv hv (by simp [isCandOk, hnet])
        rw [hnet] at h1
        exact h1
      | some html =>
        have h1 := inv_log_cand_ok inv hv (by simp [hnet])
        have hu : ((st.entities.map SiteEntity.url) ++ [resolveUrl baseUrl link.href]).Sublist
            (st.siteMap ++ [resolveUrl baseUrl link.href]) :=
          inv.entSub.append (List.Sublist.refl _)
        exact inv_sampleProduct site baseUrl html _ (inv_recordCategory h1 hu)


/-- The invariant is preserved along the whole candidate loop. -/
theorem inv_crawlLoop (site : Site) (baseUrl : String) (maxPages : Nat)
    (links : List Anchor) {st : CrawlState} (inv : Inv site.net st) :
    Inv site.net (crawlLoop site baseUrl maxPages st links) := by
  induction links generalizing st with
  | nil => exact inv
  | cons l rest ih =>
    unfold crawlLoop
    split
    · exact inv
    · exact ih (inv_processCandidate site baseUrl l inv)

/-- The state `runCrawl` returns satisfies the invariant. -/
theorem inv_runCrawl (site : Site) (rootUrl : String) (maxPages : Nat) :
    Inv site.net (runCrawl site rootUrl maxPages) := by
  unfold runCrawl
  dsimp only
  rw [fetchPageL_not_mem (by simp [initState])]
  cases hnet : site.net (stripTrailingSlash rootUrl) with
  | none =>
    constructor
    · simp [initState]
    · simp [initState]
    · intro r hr
      simp [initState] at hr
      subst hr
      simp [hnet]
    · simp [initState, isCandOk]
    · simp [initState]
    · simp [initState]
    · simp [initState]
  | some html =>
    dsimp only
    apply inv_crawlLoop
    constructor
    · simp [initState]
    · simp [initState]
    · intro r hr
      simp [initState] at hr
      subst hr
      simp [hnet]
    · simp [initState, isCandOk]
    · simp [initState]
    · simp [initState, mapSet, tfind]
    · simp [initState]

/-! ## Budget accounting -/

/-- `recordCategory` leaves the visited set unchanged. -/
theorem recordCategory_visited (lt fullUrl : String) (tpl : PageTemplate)
    (st : CrawlState) : (recordCategory lt fullUrl tpl st).visited = st.visited := by
  unfold recordCategory
  dsimp only
  split
  · split
    · rfl
    · rfl
  · rfl

/-- `sampleProduct` performs at most one fetch. -/
theorem sampleProduct_visited_le (site : Site) (baseUrl html : String)
    (tpl : PageTemplate) (st : CrawlState) :
    (sampleProduct site baseUrl html tpl st).visited.length ≤ st.visited.length + 1 := by
  unfold sampleProduct
  dsimp only
  split
  · cases hpl : extractProductLinks (site.parse html) with
    | nil => exact Nat.le_succ _
    | cons p tail =>
      dsimp only
      split
      · exact Nat.le_succ _
      · by_cases hv : resolveUrl baseUrl p.href ∈ st.visited
        · rw [fetchPageL_mem hv]
          exact Nat.le_succ _
        · rw [fetchPageL_not_mem hv]
          cases hnet : site.net (resolveUrl baseUrl p.href) with
          | none => simp
          | some ph =>
            dsimp only
            split
            · simp
            · simp
  · exact Nat.le_succ _

/-- One candidate-loop iteration performs at most two fetches. -/
theorem processCandidate_visited_le (site : Site) (baseUrl : String) (link : Anchor)
    (st : CrawlState) :
    (processCandidate site baseUrl st link).visited.length ≤ st.visited.length + 2 := by
  unfold processCandidate
  dsimp only
  split
  · exact Nat.le_add_right _ _
  · by_cases hv : resolveUrl baseUrl link.href ∈ st.visited
    · rw [fetchPageL_mem hv]
      exact Nat.le_add_right _ _
    · rw [fetchPageL_not_mem hv]
      cases hnet : site.net (resolveUrl baseUrl link.href) with
      | none => simp
      | some html =>
        dsimp only
        have h := sampleProduct_visited_le site baseUrl html
          (analyzePageTemplate baseUrl (resolveUrl baseUrl link.href) (site.parse html))
          (recordCategory link.text (resolveUrl baseUrl link.href)
            (analyzePageTemplate baseUrl (resolveUrl baseUrl link.href) (site.parse html))
            { st with
                visited := resolveUrl baseUrl link.href :: st.visited,
                fetchLog := st.fetchLog ++
                  [⟨resolveUrl baseUrl link.href, .candidate, (some html).isSome⟩],
                siteMap := st.siteMap ++ [resolveUrl baseUrl link.href] })
        rw [recordCategory_visited] at h
        simpa using h

/-- The candidate loop keeps the visited count within `maxPages + 1`. -/
theorem crawlLoop_visited_le (site : Site) (baseUrl : String) (maxPages : Nat)
    (links : List Anchor) {st : CrawlState} (h : st.visited.length ≤ maxPages + 1) :
    (crawlLoop site baseUrl maxPages st links).visited.length ≤ maxPages + 1 := by
  induction links generalizing st with
  | nil => exact h
  | cons l rest ih =>
    unfold crawlLoop
    split
    · exact h
    · rename_i hlt
      apply ih
      have h2 := processCandidate_visited_le site baseUrl l st
      omega

/-- A whole run visits (fetches) at most `maxPages + 1` URLs. -/
theorem runCrawl_visited_le (site : Site) (rootUrl : String) (maxPages : Nat) :
    (runCrawl site rootUrl maxPages).visited.length ≤ maxPages + 1 := by
  unfold runCrawl
  dsimp only
  rw [fetchPageL_not_mem (by simp [initState])]
  cases hnet : site.net (stripTrailingSlash rootUrl) with
  | none => simp [initState]
  | some html =>
    dsimp only
    apply crawlLoop_visited_le
    simp [initState]

/-! ## Template-map monotonicity -/

/-- `recordCategory` never unbinds or rebinds an existing template key. -/
theorem tfind_mono_recordCategory {k : PageTemplateType} {v : PageTemplate}
    (lt fullUrl : String) (tpl : PageTemplate) (st : CrawlState)
    (h : tfind k st.templates = some v) :
    tfind k (recordCategory lt fullUrl tpl st).templates = some v := by
  unfold recordCategory
  dsimp only
  split
  · split
    · exact h
    · rename_i hfound
      have hnone : tfind tpl.type st.templates = none := by
        cases hf : tfind tpl.type st.templates with
        | none => rfl
        | some w => simp [hf] at hfound
      dsimp only
      rw [mapSet_of_not_found hnone]
      exact tfind_append_of_some _ h
  · exact h

/-- `sampleProduct` never unbinds or rebinds an existing template key. -/
theorem tfind_mono_sampleProduct {k : PageTemplateType} {v : PageTemplate}
    (site : Site) (baseUrl html : String) (tpl : PageTemplate) (st : CrawlState)
    (h : tfind k st.templates = some v) :
    tfind k (sampleProduct site baseUrl html tpl st).templates = some v := by
  unfold sampleProduct
  dsimp only
  split
  · cases hpl : extractProductLinks (site.parse html) with
    | nil => exact h
    | cons p tail =>
      dsimp only
      split
      · exact h
      · rename_i hpdp
        have hnone : tfind .PDP st.templates = none := by
          cases hf : tfind .PDP st.templates with
          | none => rfl
          | some w => simp [hf] at hpdp
        by_cases hv : resolveUrl baseUrl p.href ∈ st.visited
        · rw [fetchPageL_mem hv]
          exact h
        · rw [fetchPageL_not_mem hv]
          cases hnet : site.net (resolveUrl baseUrl p.href) with
          | none => exact h
          | some ph =>
            dsimp only
            split
            · rw [mapSet_of_not_found hnone]
              exact tfind_append_of_some _ h
            · exact h
  · exact h

/-- One candidate-loop iteration never unbinds or rebinds an existing
template key. -/
theorem tfind_mono_processCandidate {k : PageTemplateType} {v : PageTemplate}
    (site : Site) (baseUrl : String) (link : Anchor) (st : CrawlState)
    (h : tfind k st.templates = some v) :
    tfind k (processCandidate site baseUrl st link).templates = some v := by
  unfold processCandidate
  dsimp only
  split
  · exact h
  · by_cases hv : resolveUrl baseUrl link.href ∈ st.visited
    · rw [fetchPageL_mem hv]
      exact h
    · rw [fetchPageL_not_mem hv]
      cases hnet : site.net (resolveUrl baseUrl link.href) with
      | none => exact h
      | some html =>
        dsimp only
        exact tfind_mono_sampleProduct site baseUrl html _ _
          (tfind_mono_recordCategory link.text _ _ _ h)

/-- The candidate loop never unbinds or rebinds an existing template key:
once a `TemplateType` is mapped to a template, it stays mapped to that
same template for the rest of the run. -/
theorem tfind_mono_crawlLoop {k : PageTemplateType} {v : PageTemplate}
    (site : Site) (baseUrl : String) (maxPages : Nat) (links : List Anchor)
    (st : CrawlState) (h : tfind k st.templates = some v) :
    tfind k (crawlLoop site baseUrl maxPages st links).templates = some v := by
  induction links generalizing st with
  | nil => exact h
  | cons l rest ih =>
    unfold crawlLoop
    split
    · exact h
    · exact ih _ (tfind_mono_processCandidate site baseUrl l st h)

/-! ## Classifier characterization -/

/-- The template type assigned by `analyzePageTemplate`, as a bare
priority chain. -/
theorem analyzePageTemplate_type_eq (baseUrl url : String) (d : Doc) :
    (analyzePageTemplate baseUrl url d).type =
      (if isProductDetailPage d then .PDP
       else if isCategoryPage d then .CATEGORY
       else if url = baseUrl ∨ url = baseUrl ++ "/" then .HOME
       else if isCartPage d url then .CART
       else if isSearchPage d url then .SEARCH
       else .UNKNOWN) := by
  unfold analyzePageTemplate
  dsimp only
  repeat' split
  all_goals rfl

/-- The five indicators of `isProductDetailPage`, counted as the spec
counts them (at least 2 of 5, the price indicator demanding a count
strictly between 0 and 10). -/
theorem isProductDetailPage_iff (d : Doc) :
    isProductDetailPage d = true ↔
      2 ≤ ((if 0 < d.addToCartCount then 1 else 0) +
           (if 0 < d.productTitleCount then 1 else 0) +
           (if 0 < d.productImageCount then 1 else 0) +
           (if 0 < d.priceCount ∧ d.priceCount < 10 then 1 else 0) +
           (if 0 < d.skuCount then 1 else 0)) := by
  unfold isProductDetailPage
  dsimp only
  by_cases h1 : 0 < d.addToCartCount <;>
    by_cases h2 : 0 < d.productTitleCount <;>
      by_cases h3 : 0 < d.productImageCount <;>
        by_cases h4 : 0 < d.priceCount <;>
          by_cases h5 : d.priceCount < 10 <;>
            by_cases h6 : 0 < d.skuCount <;>
              simp [List.filter_cons, h1, h2, h3, h4, h5, h6]


/-! ## The claims -/

/-- C1: for every run, the returned `siteMap` has at most `maxPages`
entries, and the total number of page fetches performed (root plus
candidates plus product samples, the disallow-policy fetch not counted)
is at most `maxPages + 1`. -/
theorem crawler_c1_bounds (site : Site) (rootUrl : String) (maxPages : Nat) :
    (analyzeSite site rootUrl maxPages).siteMap.length ≤ maxPages ∧
    (runCrawl site rootUrl maxPages).fetchLog.length ≤ maxPages + 1 := by
  have inv := inv_runCrawl site rootUrl maxPages
  have hv := runCrawl_visited_le site rootUrl maxPages
  have hm := inv.mapLt
  have hlen : (runCrawl site rootUrl maxPages).fetchLog.length =
      (runCrawl site rootUrl maxPages).visited.length := by
    have := congrArg List.length inv.logUrls
    simpa using this
  constructor
  · show (runCrawl site rootUrl maxPages).siteMap.length ≤ maxPages
    omega
  · omega

/-- C2: for every run, no URL string is fetched twice, and no URL string
appears twice in the returned `siteMap`. -/
theorem crawler_c2_no_double_fetch (site : Site) (rootUrl : String) (maxPages : Nat) :
    (((runCrawl site rootUrl maxPages).fetchLog.map FetchRec.url).Nodup) ∧
    (analyzeSite site rootUrl maxPages).siteMap.Nodup := by
  have inv := inv_runCrawl site rootUrl maxPages
  have hlog : ((runCrawl site rootUrl maxPages).fetchLog.map FetchRec.url).Nodup := by
    rw [inv.logUrls]
    exact List.nodup_reverse.mpr inv.nodupVisited
  refine ⟨hlog, ?_⟩
  show (runCrawl site rootUrl maxPages).siteMap.Nodup
  rw [inv.mapEq]
  exact hlog.sublist ((List.filter_sublist _).map _)

/-- C5: the classifier assigns PDP exactly when at least 2 of the 5
indicators hold (the price indicator demanding a price-element count
strictly between 0 and 10); a page with an add-to-cart control, a product
title and one price element is a PDP, a page with only an add-to-cart
control is not. -/
theorem crawler_c5_pdp_rule :
    (∀ (baseUrl url : String) (d : Doc),
      ((analyzePageTemplate baseUrl url d).type = PageTemplateType.PDP ↔
        2 ≤ ((if 0 < d.addToCartCount then 1 else 0) +
             (if 0 < d.productTitleCount then 1 else 0) +
             (if 0 < d.productImageCount then 1 else 0) +
             (if 0 < d.priceCount ∧ d.priceCount < 10 then 1 else 0) +
             (if 0 < d.skuCount then 1 else 0)))) ∧
    (analyzePageTemplate "http://a.com" "http://a.com/x"
        { emptyDoc with addToCartCount := 1, productTitleCount := 1, priceCount := 1 }).type =
      PageTemplateType.PDP ∧
    (analyzePageTemplate "http://a.com" "http://a.com/x"
        { emptyDoc with addToCartCount := 1 }).type ≠ PageTemplateType.PDP := by
  refine ⟨?_, by decide, by decide⟩
  intro baseUrl url d
  rw [analyzePageTemplate_type_eq, ← isProductDetailPage_iff]
  cases hp : isProductDetailPage d with
  | true => simp
  | false =>
    apply iff_of_false
    · rw [if_neg (by simp)]
      repeat' split
      all_goals simp
    · simp

/-- C6 counterexample: a run whose root fetch succeeds but whose root
page classifies as Category (it has six product links): the template is
still recorded under the Home key, so the claim's "the root page is
classified as Home" fails. -/
theorem crawler_c6_cex :
    catRootSite.net (stripTrailingSlash "http://a.com") = some "h" ∧
    tfind .HOME (analyzeSite catRootSite "http://a.com" 5).templates =
      some (analyzePageTemplate "http://a.com" "http://a.com" (catRootSite.parse "h")) ∧
    (analyzePageTemplate "http://a.com" "http://a.com" (catRootSite.parse "h")).type =
      PageTemplateType.CATEGORY := by
  refine ⟨by decide, by decide, by decide⟩

/-- C6 (amended): whenever the root fetch succeeds, the root page's
template (whatever its classification) is recorded under the Home key and
never overwritten; and the Home rule itself fires — the page classifies
as Home — whenever the ProductDetail and Category rules do not fire and
the page URL equals the site root up to a single trailing slash. -/
theorem crawler_c6_amended (site : Site) (rootUrl : String) (maxPages : Nat)
    (html : String) (hroot : site.net (stripTrailingSlash rootUrl) = some html) :
    tfind .HOME (analyzeSite site rootUrl maxPages).templates =
      some (analyzePageTemplate (stripTrailingSlash rootUrl) (stripTrailingSlash rootUrl)
        (site.parse html)) ∧
    (∀ (b u : String) (d : Doc), isProductDetailPage d = false → isCategoryPage d = false →
      (u = b ∨ u = b ++ "/") → (analyzePageTemplate b u d).type = PageTemplateType.HOME) := by
  constructor
  · show tfind .HOME (runCrawl site rootUrl maxPages).templates = _
    unfold runCrawl
    dsimp only
    rw [fetchPageL_not_mem (by simp [initState]), hroot]
    dsimp only
    apply tfind_mono_crawlLoop
    simp [initState, mapSet, tfind]
  · intro b u d h1 h2 hu
    rw [analyzePageTemplate_type_eq]
    simp [h1, h2, hu]

/-- C6 witness: the amended theorem applied to a concrete run whose root
fetch succeeds. -/
theorem crawler_c6_amended_witness :
    tfind .HOME (analyzeSite rootOnlySite "http://a.com" 5).templates =
      some (analyzePageTemplate (stripTrailingSlash "http://a.com")
        (stripTrailingSlash "http://a.com") (rootOnlySite.parse "h")) :=
  (crawler_c6_amended rootOnlySite "http://a.com" 5 "h" (by decide)).1

/-- C7: the returned template map binds each `TemplateType` at most once,
and a binding, once made, is never overwritten for the rest of the run's
candidate loop. -/
theorem crawler_c7_templates_unique (site : Site) (rootUrl : String) (maxPages : Nat) :
    (((analyzeSite site rootUrl maxPages).templates.map Prod.fst).Nodup) ∧
    (∀ (st : CrawlState) (links : List Anchor) (k : PageTemplateType) (v : PageTemplate),
      tfind k st.templates = some v →
      tfind k (crawlLoop site (stripTrailingSlash rootUrl) maxPages st links).templates =
        some v) := by
  constructor
  · show ((runCrawl site rootUrl maxPages).templates.map Prod.fst).Nodup
    exact (inv_runCrawl site rootUrl maxPages).keysNodup
  · intro st links k v h
    exact tfind_mono_crawlLoop site (stripTrailingSlash rootUrl) maxPages links st h

/-- C7 witness: the unique-keys half on a concrete run, and the
no-overwrite half applied at a concrete state already binding Home. -/
theorem crawler_c7_witness :
    tfind .HOME (crawlLoop noNetSite (stripTrailingSlash "http://a.com") 5
        ⟨[], [(.HOME, ⟨.HOME, "/", ["http://a.com"], [], []⟩)], [], [], []⟩ []).templates =
      some ⟨.HOME, "/", ["http://a.com"], [], []⟩ :=
  (crawler_c7_templates_unique noNetSite "http://a.com" 5).2
    ⟨[], [(.HOME, ⟨.HOME, "/", ["http://a.com"], [], []⟩)], [], [], []⟩ [] .HOME
    ⟨.HOME, "/", ["http://a.com"], [], []⟩ (by decide)

/-- C8: no two entities in the returned entity list share a URL. -/
theorem crawler_c8_entity_urls_nodup (site : Site) (rootUrl : String) (maxPages : Nat) :
    ((analyzeSite site rootUrl maxPages).entities.map SiteEntity.url).Nodup := by
  have inv := inv_runCrawl site rootUrl maxPages
  have hlog : ((runCrawl site rootUrl maxPages).fetchLog.map FetchRec.url).Nodup := by
    rw [inv.logUrls]
    exact List.nodup_reverse.mpr inv.nodupVisited
  have hsm : (runCrawl site rootUrl maxPages).siteMap.Nodup := by
    rw [inv.mapEq]
    exact hlog.sublist ((List.filter_sublist _).map _)
  show ((runCrawl site rootUrl maxPages).entities.map SiteEntity.url).Nodup
  exact hsm.sublist inv.entSub

/-- C9: when the root fetch fails, `analyzeSite` still returns (the model
is a total function of the world), with empty templates, entities and
site map, carrying only the disallow-policy text. -/
theorem crawler_c9_root_failure_empty (site : Site) (rootUrl : String) (maxPages : Nat)
    (h : site.net (stripTrailingSlash rootUrl) = none) :
    (analyzeSite site rootUrl maxPages).templates = [] ∧
    (analyzeSite site rootUrl maxPages).entities = [] ∧
    (analyzeSite site rootUrl maxPages).siteMap = [] ∧
    (analyzeSite site rootUrl maxPages).robotsTxt =
      site.net (stripTrailingSlash rootUrl ++ "/robots.txt") := by
  unfold analyzeSite runCrawl
  dsimp only
  rw [fetchPageL_not_mem (by simp [initState]), h]
  exact ⟨rfl, rfl, rfl, rfl⟩

/-- C9 witness: a concrete run on a world whose fetches all fail. -/
theorem crawler_c9_witness :
    (analyzeSite noNetSite "http://a.com" 5).templates = [] ∧
    (analyzeSite noNetSite "http://a.com" 5).entities = [] ∧
    (analyzeSite noNetSite "http://a.com" 5).siteMap = [] ∧
    (analyzeSite noNetSite "http://a.com" 5).robotsTxt =
      noNetSite.net (stripTrailingSlash "http://a.com" ++ "/robots.txt") :=
  crawler_c9_root_failure_empty noNetSite "http://a.com" 5 rfl

/-- C10: the returned `siteMap` is exactly the list of candidate URLs
whose (fresh) fetch succeeded; URLs fetched as the root or as product
samples never appear in it, and neither does any URL whose fetch
failed. -/
theorem crawler_c10_siteMap_exact (site : Site) (rootUrl : String) (maxPages : Nat) :
    (analyzeSite site rootUrl maxPages).siteMap =
      ((runCrawl site rootUrl maxPages).fetchLog.filter isCandOk).map FetchRec.url ∧
    (∀ r ∈ (runCrawl site rootUrl maxPages).fetchLog, r.origin ≠ Origin.candidate →
      r.url ∉ (analyzeSite site rootUrl maxPages).siteMap) ∧
    (∀ u ∈ (analyzeSite site rootUrl maxPages).siteMap, (site.net u).isSome = true) := by
  have inv := inv_runCrawl site rootUrl maxPages
  have hlog : ((runCrawl site rootUrl maxPages).fetchLog.map FetchRec.url).Nodup := by
    rw [inv.logUrls]
    exact List.nodup_reverse.mpr inv.nodupVisited
  refine ⟨inv.mapEq, ?_, ?_⟩
  · intro r hr hro hmem
    show False
    have hmem' : r.url ∈ ((runCrawl site rootUrl maxPages).fetchLog.filter isCandOk).map
        FetchRec.url := by
      rw [← inv.mapEq]
      exact hmem
    obtain ⟨r', hr', hurl⟩ := List.mem_map.mp hmem'
    obtain ⟨hr'mem, hr'ok⟩ := List.mem_filter.mp hr'
    have hrr : r' = r := List.inj_on_of_nodup_map hlog hr'mem hr hurl
    subst hrr
    unfold isCandOk at hr'ok
    cases ho : r'.origin with
    | candidate => exact hro ho
    | root => rw [ho] at hr'ok; simp at hr'ok
    | sample => rw [ho] at hr'ok; simp at hr'ok
  · intro u hu
    have hu' : u ∈ ((runCrawl site rootUrl maxPages).fetchLog.filter isCandOk).map
        FetchRec.url := by
      rw [← inv.mapEq]
      exact hu
    obtain ⟨r', hr', hurl⟩ := List.mem_map.mp hu'
    obtain ⟨hr'mem, hr'ok⟩ := List.mem_filter.mp hr'
    have hok : r'.ok = true := by
      unfold isCandOk at hr'ok
      exact (Bool.and_eq_true _ _ |>.mp hr'ok).2
    have := inv.okCorrect r' hr'mem
    rw [hok] at this
    rw [← hurl, ← this]

/-- C10 witness: in a run whose only fetch is the (successful) root
fetch, the root URL does not appear in the site map. -/
theorem crawler_c10_witness :
    "http://a.com" ∉ (analyzeSite rootOnlySite "http://a.com" 5).siteMap :=
  (crawler_c10_siteMap_exact rootOnlySite "http://a.com" 5).2.1
    ⟨"http://a.com", .root, true⟩ (by decide) (by decide)

end SiteAudit